import Mathlib

/-!
A verification development for the `quill` package (a renderer turning a
Quill-based Delta, a JSON array of insert operations, into HTML).

The Go sources are shallowly embedded: Go maps are modelled as association
lists whose order stands for the map's iteration order, the two output
`bytes.Buffer`s are `String`s threaded through a state record, pointer
mutation of the reused `Op` and of `Format` values is made explicit by
returning updated values, and `encoding/json` decoding (an external
collaborator per the spec) is represented by an already-decoded list of
raw ops.  Numbers in JSON values are modelled as integers (float64 values
that are integral and exactly representable), which is the only range the
claims about numeric coercion speak about.
-/

namespace Quill

/-- JSON values as decoded by encoding/json into `interface{}`.  `num` holds
an integral float64; `arr` elements are never inspected by the renderer
(`extractString` ignores them and `makeOp` rejects them), so they are not
carried. -/
inductive JVal where
  | str (s : String)
  | num (n : Int)
  | jbool (b : Bool)
  | null
  | arr
  | obj (kvs : List (String × JVal))

/-- Embeds `extractString` (raw_op.go): string passthrough, `true` ↦ "y",
`strconv.FormatFloat(val, 'f', 0, 64)` on an integral float64 is its minimal
decimal string (here `toString` of the integer), and every other value
(false, null, arrays, objects) ↦ "". -/
def extractString : JVal → String
  | .str s => s
  | .jbool b => if b then "y" else ""
  | .num n => toString n
  | _ => ""

/-- Embeds one character's replacement under `html.EscapeString`, which
escapes exactly the five characters `&`, `'`, `<`, `>`, `"`. -/
def escapeChar (c : Char) : String :=
  if c = '&' then "&amp;"
  else if c = Char.ofNat 39 then "&#39;"
  else if c = '<' then "&lt;"
  else if c = '>' then "&gt;"
  else if c = Char.ofNat 34 then "&#34;"
  else String.singleton c

/-- Embeds `html.EscapeString`. -/
def escapeHTML (s : String) : String := String.join (s.data.map escapeChar)

/-- Lower-case hex digit, as used by `strconv.Quote` for `\xNN` escapes. -/
def hexDigit (n : Nat) : Char := if n < 10 then Char.ofNat (48 + n) else Char.ofNat (87 + n)

/-- Two lower-case hex digits of a byte. -/
def hexByte (n : Nat) : String := String.mk [hexDigit (n / 16), hexDigit (n % 16)]

/-- Embeds one character's quoting under `strconv.Quote`: `"` and `\` get a
backslash, the standard control escapes are used, remaining ASCII control
characters (and DEL) become `\xNN`, and printable characters are passed
through verbatim.  (Non-ASCII non-printable runes, which Go would render
with `\u` escapes, do not occur in the inputs considered here and are
passed through.) -/
def goQuoteChar (c : Char) : String :=
  if c = Char.ofNat 34 then "\\\""
  else if c = '\\' then "\\\\"
  else if c = Char.ofNat 7 then "\\a"
  else if c = Char.ofNat 8 then "\\b"
  else if c = Char.ofNat 12 then "\\f"
  else if c = '\n' then "\\n"
  else if c = '\r' then "\\r"
  else if c = '\t' then "\\t"
  else if c = Char.ofNat 11 then "\\v"
  else if c.toNat < 32 then "\\x" ++ hexByte c.toNat
  else if c.toNat = 127 then "\\x7f"
  else String.singleton c

/-- Embeds `strconv.Quote`. -/
def goQuote (s : String) : String := "\"" ++ String.join (s.data.map goQuoteChar) ++ "\""

/-- Embeds the `Op` struct of render.go: `Data`, `Type` and the normalized
`Attrs` map (an association list standing for the Go map, list order standing
for the map's iteration order; keys are distinct). -/
structure Op where
  data : String
  opType : String
  attrs : List (String × String)
deriving DecidableEq

/-- Reading the Go `Attrs` map: a missing key yields the zero value "". -/
def Op.attr (o : Op) (k : String) : String := ((o.attrs.lookup k).getD "")

/-- Embeds `Op.HasAttr` (the receiver is never nil in the embedding). -/
def Op.hasAttr (o : Op) (k : String) : Bool := o.attr k != ""

/-- Embeds the `FormatPlace` constants `Tag`, `Class`, `Style`. -/
inductive FormatPlace where
  | tag
  | cls
  | style
deriving DecidableEq

/-- Numeric value of a `FormatPlace` (Tag = 0, Class = 1, Style = 2),
used by the sort comparison. -/
def FormatPlace.toNat : FormatPlace → Nat
  | .tag => 0
  | .cls => 1
  | .style => 2

/-- The closed catalog of built-in `Formatter` implementations (inline_formats.go
and the block formats file).  `RenderExtended` is embedded with a nil
`customFormats` argument (i.e. `Render`), so this closed type covers every
formatter the embedded renderer can see.  Constructor fields hold the data the
corresponding Go struct holds. -/
inductive Formatter where
  | textFormat
  | headerFormat (level : String)
  | listFormat (lType : String) (indent : Nat)
  | blockQuoteFormat
  | alignFormat (val : String)
  | imageFormat (src : String)
  | linkFormat (href : String)
  | boldFormat
  | sizeFormat (v : String)
  | italicFormat
  | underlineFormat
  | colorFormat (c : String)
  | indentFormat (v : String)
  | strikeFormat
  | bkgFormat (c : String)
  | scriptFormat (t : String)
  | codeBlockFormat
deriving DecidableEq

/-- Embeds the `Format` struct of render.go.  `fm` records the `Formatter` the
format came from; `wrap`, `wrapPre`, `wrapPost` are filled in by `addFmTer`
for `FormatWrapper` sources. -/
structure Format where
  val : String
  place : FormatPlace
  block : Bool
  wrap : Bool
  wrapPre : String
  wrapPost : String
  fm : Formatter
deriving DecidableEq

/-- Says whether the Go type behind a `Formatter` implements the
`FormatWrapper` interface (`listFormat` and `linkFormat` do). -/
def isWrapper : Formatter → Bool
  | .listFormat _ _ => true
  | .linkFormat _ => true
  | _ => false

/-- Says whether the Go type behind a `Formatter` implements the
`FormatWriter` interface (only `imageFormat` does). -/
def isWriter : Formatter → Bool
  | .imageFormat _ => true
  | _ => false

/-- Embeds each formatter's `Fmt()` method.  `imageFormat.Fmt` returns nil;
`linkFormat.Fmt` returns `new(Format)` (the zero Format).  The `fm` field is
pre-set to the formatter itself, matching the `fm.fm = fmTer` assignment that
`addFmTer` performs immediately after calling `Fmt()`. -/
def Formatter.fmt : Formatter → Option Format
  | .textFormat => some ⟨"p", .tag, true, false, "", "", .textFormat⟩
  | .headerFormat l => some ⟨"h" ++ l, .tag, true, false, "", "", .headerFormat l⟩
  | .listFormat t i => some ⟨"li", .tag, true, false, "", "", .listFormat t i⟩
  | .blockQuoteFormat => some ⟨"blockquote", .tag, true, false, "", "", .blockQuoteFormat⟩
  | .alignFormat v => some ⟨"align-" ++ v, .cls, true, false, "", "", .alignFormat v⟩
  | .imageFormat _ => none
  | .linkFormat h => some ⟨"", .tag, false, false, "", "", .linkFormat h⟩
  | .boldFormat => some ⟨"strong", .tag, false, false, "", "", .boldFormat⟩
  | .sizeFormat v => some ⟨"ql-size-" ++ v, .cls, false, false, "", "", .sizeFormat v⟩
  | .italicFormat => some ⟨"em", .tag, false, false, "", "", .italicFormat⟩
  | .underlineFormat => some ⟨"u", .tag, false, false, "", "", .underlineFormat⟩
  | .colorFormat c => some ⟨"color:" ++ c ++ ";", .style, false, false, "", "", .colorFormat c⟩
  | .indentFormat v => some ⟨"indent-" ++ v, .cls, true, false, "", "", .indentFormat v⟩
  | .strikeFormat => some ⟨"s", .tag, false, false, "", "", .strikeFormat⟩
  | .bkgFormat c =>
      some ⟨"background-color:" ++ c ++ ";", .style, false, false, "", "", .bkgFormat c⟩
  | .scriptFormat t => some ⟨t, .tag, false, false, "", "", .scriptFormat t⟩
  | .codeBlockFormat => some ⟨"pre", .tag, true, false, "", "", .codeBlockFormat⟩

/-- Embeds each formatter's `HasFormat` method. -/
def hasFormat : Formatter → Op → Bool
  | .textFormat, o => o.opType == "text"
  | .headerFormat l, o => o.attr "header" == l
  | .listFormat _ _, o => o.hasAttr "list"
  | .blockQuoteFormat, o => o.hasAttr "blockquote"
  | .alignFormat v, o => o.attr "align" == v
  | .imageFormat src, o => o.opType == "image" && o.data == src
  | .linkFormat _, _ => false
  | .boldFormat, o => o.hasAttr "bold"
  | .sizeFormat v, o => o.attr "size" == v
  | .italicFormat, o => o.hasAttr "italic"
  | .underlineFormat, o => o.hasAttr "underline"
  | .colorFormat c, o => o.attr "color" == c
  | .indentFormat v, o => o.attr "indent" == v
  | .strikeFormat, o => o.hasAttr "strike"
  | .bkgFormat c, o => o.attr "background" == c
  | .scriptFormat _, o => o.hasAttr "script"
  | .codeBlockFormat, o => o.hasAttr "code-block"

/-- Embeds the `Wrap()` method of the two `FormatWrapper` implementations
(the pre and post strings); other formatters have no wrap strings. -/
def wrapPair : Formatter → String × String
  | .listFormat t _ => ("<" ++ t ++ ">", "</" ++ t ++ ">")
  | .linkFormat h => ("<a href=" ++ goQuote h ++ " target=\"_blank\">", "</a>")
  | _ => ("", "")

/-- Embeds the `Open(open, o)` method of the `FormatWrapper` implementations:
a list wrapper opens unless a list of its type is already open; a link
wrapper always opens.  (Called only on wrappers.) -/
def openWrap (f : Formatter) (fs : List Format) (_o : Op) : Bool :=
  match f with
  | .listFormat t _ =>
      !(fs.any (fun g => g.place == FormatPlace.tag && g.val == "<" ++ t ++ ">"))
  | .linkFormat _ => true
  | _ => true

/-- Embeds the `Close(open, o, doingBlock)` method of the `FormatWrapper`
implementations.  A list wrapper closes only at a block boundary, when the
current op is not a list item or is a list item of the other type; a link
wrapper closes when the op's "link" attribute differs from its href.
(Called only on wrappers; both implementations ignore the open-formats
argument.) -/
def closeWrap (f : Formatter) (_fs : List Format) (o : Op) (doingBlock : Bool) : Bool :=
  match f with
  | .listFormat t _ =>
      if !doingBlock then false
      else
        let lt := o.attr "list"
        !(o.hasAttr "list") || (lt == "ordered" && t != "ol") || (lt == "bullet" && t != "ul")
  | .linkFormat h => o.attr "link" != h
  | _ => false

/-- Embeds `imageFormat.Write` (the `FormatWriter` body); `alt` is always
empty for formats produced by `getFormatter`. -/
def writerOutput : Formatter → String
  | .imageFormat src => "<img src=" ++ goQuote src ++ ">"
  | _ => ""

/-- A fallback `Format`, standing for the nil pointer a Go out-of-range read
would hit; every index used by the embedded loops is in range. -/
def defaultFormat : Format := ⟨"", .tag, false, false, "", "", .textFormat⟩

/-- Embeds `formatState.hasSet` (format_state.go): the format is already open
if some open entry has the same Place and Val. -/
def hasSet (fs : List Format) (fm : Format) : Bool :=
  fs.any (fun g => g.place == fm.place && g.val == fm.val)

/-- The closing text written by `formatState.pop` for one entry: a wrapper
writes its wrapPost; a Tag-placement format writes `</val>`; Class and Style
placements write `</span>`. -/
def popFrag (f : Format) : String :=
  if f.wrap then f.wrapPost
  else if f.place = FormatPlace.tag then "</" ++ f.val ++ ">"
  else "</span>"

/-- The opening text `formatState.writeFormats` writes for one entry: a
wrapper's Val is the complete opening wrap; otherwise a tag, a
`<span class=...>`, or a `<span style=...>` (values quoted by
`strconv.Quote`). -/
def openFrag (f : Format) : String :=
  if f.wrap then f.val
  else
    match f.place with
    | .tag => "<" ++ f.val ++ ">"
    | .cls => "<span class=" ++ goQuote f.val ++ ">"
    | .style => "<span style=" ++ goQuote f.val ++ ">"

/-- Embeds `formatState.Less` (format_state.go): formats whose source
implements `FormatWrapper` sort first; then Tag-placement before Class before
Style; then lexical comparison of Val. -/
def fsLess (a b : Format) : Bool :=
  if isWrapper a.fm then true
  else if isWrapper b.fm then false
  else if a.place.toNat != b.place.toNat then decide (a.place.toNat < b.place.toNat)
  else decide (a.val < b.val)

/-- One bubbling pass of Go's insertion sort, on the reversed list (head =
right end of the slice): the new element x moves left past each neighbor y
while `less x y`. -/
def insertRev (less : α → α → Bool) (x : α) : List α → List α
  | [] => [x]
  | y :: ys => if less x y then y :: insertRev less x ys else x :: y :: ys

/-- Inserting one element at the right end of the slice and bubbling it left,
exactly as the inner loop of Go's `insertionSort` does. -/
def goInsert (less : α → α → Bool) (l : List α) (x : α) : List α :=
  (insertRev less x l.reverse).reverse

/-- Embeds `sort.Sort` as used on a `formatState`: for slices of fewer than
13 elements (every format stack in this development) Go's pdqsort is exactly
insertion sort with the `Less` method. -/
def insertionSort (less : α → α → Bool) (l : List α) : List α :=
  l.foldl (goInsert less) []

/-- The sort applied by `formatState.writeFormats`. -/
def sortFmts (l : List Format) : List Format := insertionSort fsLess l

/-- The concatenated opening fragments of a list of formats, in list order. -/
def opensOf (l : List Format) : String := String.join (l.map openFrag)

/-- The text written by `formatState.writeFormats`: the entries are sorted
and then each opening fragment is written. -/
def writeFormatsOut (l : List Format) : String := opensOf (sortFmts l)

/-- The closing text written when a run of entries (a suffix `l` of the
stack, in stack order) is popped top-down. -/
def popsOf (l : List Format) : String := String.join (l.reverse.map popFrag)

/-- The close condition of `formatState.closePrevious` (and of the closing
loop of `Op.writeBlock`): a non-wrapper closes when `HasFormat` is false on
the current op; a wrapper closes when its `Close` predicate says so. -/
def closeDue (fs : List Format) (f : Format) (o : Op) (doingBlock : Bool) : Bool :=
  (!f.wrap && !(hasFormat f.fm o)) || (f.wrap && closeWrap f.fm fs o doingBlock)

/-- The scanning loop of `formatState.closePrevious`, from the most recently
opened entry down to the oldest (the counter `i+1` means index `i` is
examined next).  When an entry is due to close, the entries above it are
popped (written as closing tags) and appended to closedTemp top-down, then
the entry itself is popped.  Returns the remaining stack, the accumulated
closedTemp, and the text written. -/
def closePrevLoop (o : Op) (doingBlock : Bool) :
    Nat → List Format × List Format × String → List Format × List Format × String
  | 0, st => st
  | i + 1, (fs, ct, out) =>
      let f := fs.getD i defaultFormat
      if closeDue fs f o doingBlock then
        let above := fs.drop (i + 1)
        closePrevLoop o doingBlock i
          (fs.take i, ct ++ above.reverse, out ++ popsOf above ++ popFrag f)
      else
        closePrevLoop o doingBlock i (fs, ct, out)

/-- Embeds `formatState.closePrevious`: run the scanning loop over the whole
stack, then re-open the temporarily closed formats (`writeFormats` sorts
closedTemp in place and writes each opening fragment) and append them to the
stack.  Returns the new stack and the text written to `buf`. -/
def closePrevious (fs : List Format) (o : Op) (doingBlock : Bool) : List Format × String :=
  let r := closePrevLoop o doingBlock fs.length (fs, [], "")
  let sorted := sortFmts r.2.1
  (r.1 ++ sorted, r.2.2 ++ opensOf sorted)

/-- Embeds `renderVars` (render.go) without the reused `Op` and `fms` slice,
which are threaded explicitly: the final output buffer, the temporary
per-block buffer, and the stack of currently open formats. -/
structure RState where
  finalBuf : String
  tempBuf : String
  fs : List Format
deriving DecidableEq

/-- Embeds `Op.addFmTer` (render.go).  A nil formatter is ignored.  A nil
`Fmt()` means a `FormatWriter`, whose body is written to the temporary
buffer, after which the op's Data is cleared.  A `FormatWrapper` has its wrap
fields filled in and is always appended to fms; any other format is appended
only if not already open on the stack.  Returns the updated state, fms, and
op (whose Data a writer may have cleared). -/
def addFmTer (s : RState) (fms : List Format) (o : Op) :
    Option Formatter → RState × List Format × Op
  | none => (s, fms, o)
  | some fmTer =>
      match fmTer.fmt with
      | none =>
          if isWriter fmTer then
            ({ s with tempBuf := s.tempBuf ++ writerOutput fmTer }, fms, { o with data := "" })
          else (s, fms, o)
      | some fm =>
          if isWrapper fmTer then
            let pq := wrapPair fmTer
            (s, fms ++ [{ fm with wrap := true, wrapPre := pq.1, wrapPost := pq.2 }], o)
          else if hasSet s.fs fm then (s, fms, o)
          else (s, fms ++ [fm], o)

/-- Embeds `indentDepths` (the block formats file): the indent amount of a
list, or 0 if there is no indenting. -/
def indentDepths (s : String) : Nat :=
  if s = "1" then 1 else if s = "2" then 2 else if s = "3" then 3
  else if s = "4" then 4 else if s = "5" then 5 else 0

/-- Embeds `Op.getFormatter` with a nil `customFormats` argument: the switch
over the recognized keywords.  `codeBlockFormat`'s own file is not among the
sources; it is modelled from the spec's catalog of block formats as a
block-level `pre` tag keyed on the "code-block" attribute. -/
def getFormatter (keyword : String) (o : Op) : Option Formatter :=
  if keyword = "text" then some .textFormat
  else if keyword = "header" then some (.headerFormat (o.attr "header"))
  else if keyword = "list" then
    some (.listFormat (if o.attr "list" == "bullet" then "ul" else "ol")
      (indentDepths (o.attr "indent")))
  else if keyword = "blockquote" then some .blockQuoteFormat
  else if keyword = "align" then some (.alignFormat (o.attr "align"))
  else if keyword = "image" then some (.imageFormat o.data)
  else if keyword = "link" then some (.linkFormat (o.attr "link"))
  else if keyword = "bold" then some .boldFormat
  else if keyword = "size" then some (.sizeFormat (o.attr "size"))
  else if keyword = "italic" then some .italicFormat
  else if keyword = "underline" then some .underlineFormat
  else if keyword = "color" then some (.colorFormat (o.attr "color"))
  else if keyword = "indent" then some (.indentFormat (o.attr "indent"))
  else if keyword = "strike" then some .strikeFormat
  else if keyword = "background" then some (.bkgFormat (o.attr "background"))
  else if keyword = "script" then
    some (.scriptFormat (if o.attr "script" == "super" then "sup" else "sub"))
  else if keyword = "code-block" then some .codeBlockFormat
  else none

/-- The list of keywords recognized by the built-in `getFormatter` switch. -/
def recognizedKeywords : List String :=
  ["text", "header", "list", "blockquote", "align", "image", "link", "bold", "size",
   "italic", "underline", "color", "indent", "strike", "background", "script", "code-block"]

/-- The `for attr := range vars.o.Attrs` loop of `RenderExtended`: resolve a
formatter for each attribute key (in iteration order) and feed it to
`addFmTer`. -/
def addAttrFmTers (s : RState) (fms : List Format) (o : Op) :
    List String → RState × List Format × Op
  | [] => (s, fms, o)
  | k :: rest =>
      let r := addFmTer s fms o (getFormatter k o)
      addAttrFmTers r.1 r.2.1 r.2.2 rest

/-- The addNow loop of `Op.writeInline`: keep the non-block formats; a
wrapper is added (with its Val set to the opening wrap) only if its `Open`
predicate says so.  Returns the updated fms (Go mutates the shared Format
values through pointers) and the addNow list. -/
def buildAddNow (fs : List Format) (o : Op) : List Format → List Format × List Format
  | [] => ([], [])
  | f :: rest =>
      let r := buildAddNow fs o rest
      if !f.block then
        if f.wrap then
          if openWrap f.fm fs o then
            let f1 := { f with val := f.wrapPre }
            (f1 :: r.1, f1 :: r.2)
          else (f :: r.1, r.2)
        else (f :: r.1, f :: r.2)
      else (f :: r.1, r.2)

/-- Embeds `Op.writeInline`: close no-longer-applicable formats to the
temporary buffer, write the newly applicable non-block formats (sorted) to
it, push them on the stack, and append the op's Data.  Returns the new state
and the updated fms. -/
def writeInline (s : RState) (fms : List Format) (o : Op) : RState × List Format :=
  let cp := closePrevious s.fs o false
  let an := buildAddNow cp.1 o fms
  let sorted := sortFmts an.2
  ({ s with
      fs := cp.1 ++ sorted,
      tempBuf := s.tempBuf ++ cp.2 ++ opensOf sorted ++ o.data },
   an.1)

/-- The closing loop of `Op.writeBlock`.  It mirrors `closePrevLoop` but
chooses the buffer per dance: when the entry due to close is a block-level
wrapper, the pops (of it and of the entries held aside above it) go to the
final buffer, otherwise to the temporary buffer.  Returns the remaining
stack, closedTemp, the text for the temporary buffer, and the text for the
final buffer. -/
def writeBlockLoop (o : Op) :
    Nat → List Format × List Format × String × String →
    List Format × List Format × String × String
  | 0, st => st
  | i + 1, (fs, ct, tAdd, fAdd) =>
      let f := fs.getD i defaultFormat
      if closeDue fs f o true then
        let above := fs.drop (i + 1)
        let frag := popsOf above ++ popFrag f
        if f.wrap && f.block then
          writeBlockLoop o i (fs.take i, ct ++ above.reverse, tAdd, fAdd ++ frag)
        else
          writeBlockLoop o i (fs.take i, ct ++ above.reverse, tAdd ++ frag, fAdd)
      else
        writeBlockLoop o i (fs, ct, tAdd, fAdd)

/-- The merged block element of `Op.writeBlock`: a single tag name (a
Tag-placement block format overrides any previous one), accumulated classes,
and concatenated style text. -/
structure BlockMerge where
  tagName : String
  classes : List String
  style : String
deriving DecidableEq

/-- The merge loop of `Op.writeBlock` over the op's fms: block-level formats
are merged into the single block element; each wrapper whose `Open` predicate
holds has its Val set to the opening wrap, is pushed on the stack, and its
opening wrap is written to the final buffer.  Returns the updated fms (Go
mutates the shared Format values), the merge record, the stack, and the text
for the final buffer. -/
def mergeLoop (o : Op) :
    List Format → BlockMerge → List Format → String →
    List Format × BlockMerge × List Format × String
  | [], b, fs, fin => ([], b, fs, fin)
  | fm :: rest, b, fs, fin =>
      let b1 :=
        if fm.block then
          match fm.place with
          | .tag => { b with tagName := fm.val }
          | .cls => { b with classes := b.classes ++ [fm.val] }
          | .style => { b with style := b.style ++ fm.val }
        else b
      if fm.wrap && openWrap fm.fm fs o then
        let fm1 := { fm with val := fm.wrapPre }
        let r := mergeLoop o rest b1 (fs ++ [fm1]) (fin ++ fm.wrapPre)
        (fm1 :: r.1, r.2)
      else
        let r := mergeLoop o rest b1 fs fin
        (fm :: r.1, r.2)

/-- Embeds `classesList` (render.go). -/
def classesList (cl : List String) : String :=
  if cl.length > 0 then " class=" ++ goQuote (String.intercalate " " cl) else ""

/-- The opening tag of the merged block element (nothing when the tag name
is empty). -/
def blockOpenTag (b : BlockMerge) : String :=
  if b.tagName != "" then
    "<" ++ b.tagName ++ classesList b.classes ++
      (if b.style != "" then " style=" ++ goQuote b.style else "") ++ ">"
  else ""

/-- The closing tag of the merged block element. -/
def blockCloseTag (b : BlockMerge) : String :=
  if b.tagName != "" then "</" ++ b.tagName ++ ">" else ""

/-- The result of `Op.writeBlock`'s closing loop over the whole stack. -/
def blockCloseStep (s : RState) (o : Op) : List Format × List Format × String × String :=
  writeBlockLoop o s.fs.length (s.fs, [], "", "")

/-- The content of the temporary buffer inside `Op.writeBlock` after the
closing loop has written the closing tags and closedTemp has been re-opened
into it (this is the buffer the `<br>` substitution inspects). -/
def blockTempAfterClose (s : RState) (o : Op) : String :=
  s.tempBuf ++ (blockCloseStep s o).2.2.1 ++ opensOf (sortFmts (blockCloseStep s o).2.1)

/-- The stack inside `Op.writeBlock` after closedTemp has been re-appended. -/
def blockFsAfterClose (s : RState) (o : Op) : List Format :=
  (blockCloseStep s o).1 ++ sortFmts (blockCloseStep s o).2.1

/-- The result of `Op.writeBlock`'s merge loop over the op's fms. -/
def blockMergeStep (s : RState) (fms : List Format) (o : Op) :
    List Format × BlockMerge × List Format × String :=
  mergeLoop o fms ⟨"", [], ""⟩ (blockFsAfterClose s o) ""

/-- Embeds `Op.writeBlock`: run the closing loop, re-open closedTemp into
the temporary buffer, merge the block formats and open wrappers, substitute
`<br>` for the Data when a text paragraph would otherwise be empty, then
write the opening tag, the temporary buffer, the Data, and the closing tag
to the final buffer, and reset the temporary buffer.  Returns the new state
and the updated fms. -/
def writeBlock (s : RState) (fms : List Format) (o : Op) : RState × List Format :=
  let temp1 := blockTempAfterClose s o
  let M := blockMergeStep s fms o
  let b := M.2.1
  let data1 := if o.data = "" ∧ b.tagName = "p" ∧ temp1 = "" then "<br>" else o.data
  ({ finalBuf := s.finalBuf ++ (blockCloseStep s o).2.2.2 ++ M.2.2.2 ++ blockOpenTag b ++
        temp1 ++ data1 ++ blockCloseTag b,
     tempBuf := "",
     fs := M.2.2.1 },
   M.1)

/-- Embeds `strings.Split(s, "\n")` character by character. -/
def splitNlChars : List Char → List (List Char)
  | [] => [[]]
  | c :: rest =>
      if c = '\n' then [] :: splitNlChars rest
      else
        match splitNlChars rest with
        | [] => [[c]]
        | l :: ls => (c :: l) :: ls

/-- Embeds `strings.Split(o.Data, "\n")`. -/
def splitNl (s : String) : List String := (splitNlChars s.data).map List.asString

/-- Embeds `strings.IndexByte(s, '\n') != -1`. -/
def hasNl (s : String) : Bool := s.data.any (fun c => c == '\n')

/-- The per-segment loop of `RenderExtended` for an op whose Data contains a
newline: every segment except the last terminates a block (`writeBlock`); a
non-empty last segment is written inline. -/
def processSegs (o : Op) : RState → List Format → List String → RState
  | s, _, [] => s
  | s, fms, [last] =>
      if last != "" then (writeInline s fms { o with data := last }).1 else s
  | s, fms, seg :: rest =>
      let r := writeBlock s fms { o with data := seg }
      processSegs o r.1 r.2 rest

/-- Embeds the `rawOp` struct (raw_op.go): the decoded `insert` value (a
missing field and a JSON null both decode to a nil interface, here `.null`)
and the decoded `attributes` object (an association list in iteration
order; a nil map is the empty list). -/
structure RawOp where
  insert : JVal
  attrs : List (String × JVal)

/-- Embeds `rawOp.makeOp`: a string insert yields a "text" op with the
HTML-escaped string as Data; a non-empty single-key-object insert yields an
op whose Type is the first key seen by the map iteration and whose Data is
the coerced value; everything else (nil, numbers, booleans, arrays, empty
objects) is an error.  Attribute values are coerced by `extractString`.
(The reused Go `Op` has every field overwritten here, so a fresh `Op` is
returned.) -/
def makeOp (ro : RawOp) : Option Op :=
  match ro.insert with
  | .str s =>
      some { data := escapeHTML s, opType := "text",
             attrs := ro.attrs.map (fun kv => (kv.1, extractString kv.2)) }
  | .obj [] => none
  | .obj ((k, v) :: _) =>
      some { data := extractString v, opType := k,
             attrs := ro.attrs.map (fun kv => (kv.1, extractString kv.2)) }
  | _ => none

/-- The kinds of error `Render` can return: a JSON decode error (from
`json.Unmarshal`, before any rendering), an op without a usable insert
(`makeOp` failed), or an op whose type has no formatter. -/
inductive RErr where
  | decode (msg : String)
  | badOp
  | noTypeFormat
deriving DecidableEq

/-- The error, if any, that processing one raw op reports: `makeOp` failure,
or no formatter for the op's type.  (Attribute keywords never produce an
error.) -/
def opError (ro : RawOp) : Option RErr :=
  match makeOp ro with
  | none => some .badOp
  | some o =>
      match getFormatter o.opType o with
      | none => some .noTypeFormat
      | some _ => none

/-- Embeds `blankOp` (render.go): the synthetic op used to signal wrappers
to write their final closing wrap. -/
def blankOp : Op := { data := "", opType := "text", attrs := [] }

/-- The body of `RenderExtended`'s `for i := range raw` loop for one raw op:
convert it (`makeOp`), resolve the type formatter (an error if none), feed
the type formatter and then each attribute's formatter to `addFmTer`, and
dispatch on whether the Data contains a newline.  Returns the new state and
the error, if any (the state is unchanged on error). -/
def processOp (s : RState) (ro : RawOp) : RState × Option RErr :=
  match makeOp ro with
  | none => (s, some .badOp)
  | some o =>
      match getFormatter o.opType o with
      | none => (s, some .noTypeFormat)
      | some tf =>
          let r1 := addFmTer s [] o (some tf)
          let r2 := addAttrFmTers r1.1 r1.2.1 r1.2.2 (r1.2.2.attrs.map Prod.fst)
          let s2 := r2.1
          let fms := r2.2.1
          let o2 := r2.2.2
          if hasNl o2.data then
            (processSegs o2 s2 fms (splitNl o2.data), none)
          else
            ((writeInline s2 fms o2).1, none)

/-- The state after one successfully processed op. -/
def stepOk (s : RState) (ro : RawOp) : RState := (processOp s ro).1

/-- The end of `RenderExtended`: force-close the remaining open formats
against the blank op in block mode, writing to the final buffer (the
temporary buffer is never copied out here). -/
def finishRender (s : RState) : String :=
  s.finalBuf ++ (closePrevious s.fs blankOp true).2

/-- The op loop of `RenderExtended`: on the first failing op, return the
final buffer accumulated so far together with the error; otherwise finish the
render after the last op. -/
def renderLoop : RState → List RawOp → String × Option RErr
  | s, [] => (finishRender s, none)
  | s, ro :: rest =>
      match processOp s ro with
      | (s1, some e) => (s1.finalBuf, some e)
      | (s1, none) => renderLoop s1 rest

/-- The initial render state: empty buffers, no open formats. -/
def initState : RState := { finalBuf := "", tempBuf := "", fs := [] }

/-- Embeds `Render` (equivalently `RenderExtended` with nil custom formats)
applied to an already-decoded raw op list. -/
def RenderOps (raw : List RawOp) : String × Option RErr :=
  renderLoop initState raw

/-- Embeds `Render` including the decode step, whose outcome (JSON decoding
is an external collaborator) is passed in: a decode error aborts before any
rendering, with no HTML produced (Go returns nil). -/
def RenderDecoded : Except String (List RawOp) → String × Option RErr
  | .error e => ("", some (.decode e))
  | .ok raw => RenderOps raw

/-- The lexicographic key order used among non-wrapper formats: Tag-placement
before Class before Style, ties broken by the value string. -/
def keyLe (a b : Format) : Prop :=
  a.place.toNat < b.place.toNat ∨ (a.place = b.place ∧ a.val ≤ b.val)

/-- The canonical serialization order guaranteed by `formatState.Less` and
the sort: a non-wrapper never precedes a wrapper, and among non-wrappers the
keys are lexicographically ordered. -/
def canonBefore (a b : Format) : Prop :=
  (isWrapper b.fm = true → isWrapper a.fm = true) ∧
  (isWrapper a.fm = false → keyLe a b)

/-- An open `em` entry (as pushed for the italic attribute). -/
def exEm : Format := ⟨"em", .tag, false, false, "", "", .italicFormat⟩

/-- An open color-style entry for the value "red". -/
def exColor : Format := ⟨"color:red;", .style, false, false, "", "", .colorFormat "red"⟩

/-- An open `strong` entry (as pushed for the bold attribute). -/
def exStrong : Format := ⟨"strong", .tag, false, false, "", "", .boldFormat⟩

/-- An op that keeps color and bold applied but drops italic. -/
def exOp : Op := ⟨"x", "text", [("color", "red"), ("bold", "y")]⟩

end Quill

namespace Quill

/-- Claim C1: each literal scenario of the spec renders to exactly the given
HTML with no error: a lone newline gives an empty paragraph with a br, two
newline-terminated lines give two paragraphs, the bold-then-bullet sequence
gives a one-item bullet list, the color-attributed op gives a styled span in
a paragraph, and the image embed followed by a newline gives an img tag in a
paragraph. -/
theorem scenario_renders :
    RenderOps [⟨.str "\n", []⟩] = ("<p><br></p>", none) ∧
    RenderOps [⟨.str "line1\nline2\n", []⟩] = ("<p>line1</p><p>line2</p>", none) ∧
    RenderOps [⟨.str "abc ", []⟩, ⟨.str "bld", [("bold", .jbool true)]⟩,
        ⟨.str "\n", [("list", .str "bullet")]⟩] =
      ("<ul><li>abc <strong>bld</strong></li></ul>", none) ∧
    RenderOps [⟨.str "colored", [("color", .str "#a10000")]⟩, ⟨.str "\n", []⟩] =
      ("<p><span style=\"color:#a10000;\">colored</span></p>", none) ∧
    RenderOps [⟨.obj [("image", .str "source-url")], []⟩, ⟨.str "\n", []⟩] =
      ("<p><img src=\"source-url\"></p>", none) :=
  ⟨rfl, rfl, rfl, rfl, rfl⟩

/-- Claim C2 (refuted by the code): rendering a bold run, a bullet-list
newline, another bold run, and a bold newline produces output in which the
held-aside `strong` entry's closing tag is written to the final buffer while
the list wrapper closes (writeBlock chooses the buffer by the flags of the
entry being closed, not of the held-aside entry), so a stray `</strong>`
appears after `</li>` and the re-opened `<strong>` inside the paragraph is
matched only by a close after `</p>`: the output is not a well-nested tag
tree.  Moreover an op whose color attribute is null leaves a
`<span style="color:;">` entry that survives the final force-close, so the
format-state stack is not empty at the end of that render. -/
theorem nesting_failure_render :
    RenderOps [⟨.str "a", [("bold", .jbool true)]⟩, ⟨.str "\n", [("list", .str "bullet")]⟩,
        ⟨.str "b", [("bold", .jbool true)]⟩, ⟨.str "\n", [("bold", .jbool true)]⟩] =
      ("<ul><li><strong>a</strong></li></strong></ul><p><strong>b<strong></p></strong>",
       none) ∧
    (RenderOps [⟨.str "x", [("color", JVal.null)]⟩, ⟨.str "\n", []⟩]).1 =
      "<p><span style=\"color:;\">x</p>" ∧
    (closePrevious
        (stepOk (stepOk initState ⟨.str "x", [("color", JVal.null)]⟩) ⟨.str "\n", []⟩).fs
        blankOp true).1 ≠ [] :=
  ⟨rfl, rfl, by decide⟩

/-- Claim C4 (refuted by the code): permuting the attribute keys of a single
op changes the rendered bytes.  Block-level class formats are accumulated in
attribute-map iteration order without the canonical sort, so an op carrying
both an align and an indent attribute renders its classes in iteration order:
the two orderings of the same attribute set give different HTML. -/
theorem attr_order_changes_output :
    (RenderOps [⟨.str "a\n", [("align", .str "center"), ("indent", .str "3")]⟩]).1 =
      "<p class=\"align-center indent-3\">a</p>" ∧
    (RenderOps [⟨.str "a\n", [("indent", .str "3"), ("align", .str "center")]⟩]).1 =
      "<p class=\"indent-3 align-center\">a</p>" ∧
    (RenderOps [⟨.str "a\n", [("align", .str "center"), ("indent", .str "3")]⟩]).1 ≠
      (RenderOps [⟨.str "a\n", [("indent", .str "3"), ("align", .str "center")]⟩]).1 :=
  ⟨rfl, rfl, by decide⟩

/-- Claim C7: the scalar coercion of raw insert and attribute values: a
string passes through (and the insert payload of a string op is additionally
HTML-escaped); boolean true becomes "y"; boolean false, null, and
unrecognized values (arrays, objects) become ""; an integral numeric value
becomes its minimal decimal string (e.g. 3.0 becomes "3"); attribute values
undergo exactly `extractString`. -/
theorem normalization_coercion :
    (∀ s : String, extractString (.str s) = s) ∧
    extractString (.jbool true) = "y" ∧
    extractString (.jbool false) = "" ∧
    extractString .null = "" ∧
    extractString .arr = "" ∧
    (∀ kvs, extractString (.obj kvs) = "") ∧
    (∀ n : Int, extractString (.num n) = toString n) ∧
    extractString (.num 3) = "3" ∧
    extractString (.num (-7)) = "-7" ∧
    (∀ (s : String) (attrs : List (String × JVal)),
      makeOp ⟨.str s, attrs⟩ =
        some ⟨escapeHTML s, "text", attrs.map (fun kv => (kv.1, extractString kv.2))⟩) ∧
    escapeHTML "a<b>&c\"d" = "a&lt;b&gt;&amp;c&#34;d" :=
  ⟨fun _ => rfl, rfl, rfl, rfl, rfl, fun _ => rfl, fun _ => rfl, rfl, rfl,
   fun _ _ => rfl, rfl⟩

/-- Claim C8 counterexample: an empty header block is rendered as `<h1></h1>`
with no `<br>` substitution — the substitution requires the merged block tag
to be exactly "p", not merely that the block would be empty. -/
theorem empty_header_no_br :
    RenderOps [⟨.str "\n", [("header", .num 1)]⟩] = ("<h1></h1>", none) ∧
    ("<h1></h1>" : String) ≠ "<h1><br></h1>" :=
  ⟨rfl, by decide⟩

/-- Claim C9: inline content after the final newline is written only to the
temporary buffer and never copied to the returned HTML: `writeInline` leaves
the final buffer untouched, the end-of-render step ignores the temporary
buffer entirely, and the bold-"abc" document renders to exactly "</strong>"
(the closing tag emitted by the final force-close) with no error. -/
theorem trailing_inline_discarded :
    RenderOps [⟨.str "abc", [("bold", .jbool true)]⟩] = ("</strong>", none) ∧
    (∀ (s : RState) (fms : List Format) (o : Op),
      (writeInline s fms o).1.finalBuf = s.finalBuf) ∧
    (∀ (s : RState) (t : String), finishRender { s with tempBuf := t } = finishRender s) :=
  ⟨rfl, fun _ _ _ => rfl, fun _ _ => rfl⟩

/-- Processing one op reports exactly the error `opError` predicts. -/
theorem processOp_snd (s : RState) (ro : RawOp) : (processOp s ro).2 = opError ro := by
  cases hm : makeOp ro with
  | none => simp [processOp, opError, hm]
  | some o =>
      cases hg : getFormatter o.opType o with
      | none => simp [processOp, opError, hm, hg]
      | some tf =>
          simp only [processOp, opError, hm, hg]
          split <;> rfl

/-- A failing op leaves the state unchanged and returns its error. -/
theorem processOp_of_err (s : RState) (ro : RawOp) (e : RErr) (h : opError ro = some e) :
    processOp s ro = (s, some e) := by
  cases hm : makeOp ro with
  | none =>
      have he : RErr.badOp = e := by simpa [opError, hm] using h
      subst he
      simp [processOp, hm]
  | some o =>
      cases hg : getFormatter o.opType o with
      | none =>
          have he : RErr.noTypeFormat = e := by simpa [opError, hm, hg] using h
          subst he
          simp [processOp, hm, hg]
      | some tf =>
          exact absurd h (by simp [opError, hm, hg])

/-- A successful op advances the state by `stepOk` and reports no error. -/
theorem processOp_of_ok (s : RState) (ro : RawOp) (h : opError ro = none) :
    processOp s ro = (stepOk s ro, none) := by
  have h2 := processOp_snd s ro
  rw [h] at h2
  calc processOp s ro = ((processOp s ro).1, (processOp s ro).2) := rfl
    _ = (stepOk s ro, none) := by rw [h2]; rfl

/-- When every op processes cleanly, the render loop reports no error. -/
theorem renderLoop_ok (raw : List RawOp) :
    ∀ s : RState, (∀ ro ∈ raw, opError ro = none) → (renderLoop s raw).2 = none := by
  induction raw with
  | nil => intro s _; rfl
  | cons ro rest ih =>
      intro s h
      rw [renderLoop, processOp_of_ok s ro (h ro (List.mem_cons_self ro rest))]
      exact ih (stepOk s ro) (fun r hr => h r (List.mem_cons_of_mem ro hr))

/-- The render loop aborts at the first failing op, returning the final
buffer accumulated over the preceding good ops together with that op's
error. -/
theorem renderLoop_first_err (bad : RawOp) (rest : List RawOp) (e : RErr)
    (he : opError bad = some e) :
    ∀ (good : List RawOp) (s : RState), (∀ ro ∈ good, opError ro = none) →
      renderLoop s (good ++ bad :: rest) = ((good.foldl stepOk s).finalBuf, some e) := by
  intro good
  induction good with
  | nil =>
      intro s _
      rw [List.nil_append, renderLoop, processOp_of_err s bad e he]
      rfl
  | cons g gs ih =>
      intro s h
      rw [List.cons_append, renderLoop, processOp_of_ok s g (h g (List.mem_cons_self g gs))]
      exact ih (stepOk s g) (fun r hr => h r (List.mem_cons_of_mem g hr))

/-- Claim C6: Render fails in exactly two ways, both returning the HTML
finalized so far: a decode failure aborts before rendering with no HTML; a
first failing op (unusable insert, or a type with no formatter) aborts the
loop with the final buffer accumulated over the preceding ops; when every op
is good there is no error; an attribute keyword outside the recognized
switch resolves to no formatter, and a nil formatter leaves the state, the
fms list, and the op untouched (silently ignored, never an error). -/
theorem render_error_behavior :
    (∀ e, RenderDecoded (.error e) = ("", some (.decode e))) ∧
    (∀ raw : List RawOp, (∀ ro ∈ raw, opError ro = none) → (RenderOps raw).2 = none) ∧
    (∀ (good : List RawOp) (bad : RawOp) (rest : List RawOp) (e : RErr),
      (∀ ro ∈ good, opError ro = none) → opError bad = some e →
      RenderOps (good ++ bad :: rest) = ((good.foldl stepOk initState).finalBuf, some e)) ∧
    (∀ (k : String) (o : Op), k ∉ recognizedKeywords → getFormatter k o = none) ∧
    (∀ (s : RState) (fms : List Format) (o : Op), addFmTer s fms o none = (s, fms, o)) := by
  refine ⟨fun _ => rfl, ?_, ?_, ?_, fun _ _ _ => rfl⟩
  · intro raw h
    exact renderLoop_ok raw initState h
  · intro good bad rest e hg he
    exact renderLoop_first_err bad rest e he good initState hg
  · intro k o hk
    simp only [recognizedKeywords, List.mem_cons, List.mem_singleton, not_or] at hk
    obtain ⟨h1, h2, h3, h4, h5, h6, h7, h8, h9, h10, h11, h12, h13, h14, h15, h16, h17⟩ := hk
    simp [getFormatter, h1, h2, h3, h4, h5, h6, h7, h8, h9, h10, h11, h12, h13, h14, h15,
      h16, h17]

/-- Claim C6 witness: a document whose second op has a null insert renders
the first op's paragraph and then aborts with the malformed-op error, and the
unrecognized attribute keyword "custom-attr" resolves to no formatter. -/
theorem render_error_behavior_witness :
    RenderOps [⟨.str "\n", []⟩, ⟨.null, []⟩] = ("<p><br></p>", some .badOp) ∧
    getFormatter "custom-attr" blankOp = none := by
  constructor
  · have h := render_error_behavior.2.2.1 [⟨.str "\n", []⟩] ⟨.null, []⟩ [] .badOp
      (by decide) (by decide)
    exact h.trans (by decide)
  · exact render_error_behavior.2.2.2.1 "custom-attr" blankOp (by decide)

/-- The numeric value of a `FormatPlace` determines it. -/
theorem FormatPlace.toNat_inj {a b : FormatPlace} (h : a.toNat = b.toNat) : a = b := by
  cases a <;> cases b <;> simp_all [FormatPlace.toNat]

/-- A strict `Less` verdict implies the canonical order. -/
theorem canonBefore_of_fsLess {a b : Format} (h : fsLess a b = true) : canonBefore a b := by
  unfold fsLess at h
  by_cases ha : isWrapper a.fm = true
  · exact ⟨fun _ => ha, fun hfa => absurd ha (by simp [hfa])⟩
  · have ha' : isWrapper a.fm = false := by simpa using ha
    rw [if_neg ha] at h
    by_cases hb : isWrapper b.fm = true
    · rw [if_pos hb] at h
      exact absurd h (by simp)
    · rw [if_neg hb] at h
      refine ⟨fun hbw => absurd hbw hb, fun _ => ?_⟩
      by_cases hp : a.place.toNat = b.place.toNat
      · rw [if_neg (by simpa using hp)] at h
        exact Or.inr ⟨FormatPlace.toNat_inj hp, le_of_lt (of_decide_eq_true h)⟩
      · rw [if_pos (by simpa using hp)] at h
        exact Or.inl (of_decide_eq_true h)

/-- A negative `Less` verdict implies the reverse canonical order. -/
theorem canonBefore_of_not_fsLess {a b : Format} (h : fsLess a b = false) :
    canonBefore b a := by
  unfold fsLess at h
  by_cases ha : isWrapper a.fm = true
  · rw [if_pos ha] at h
    exact absurd h (by simp)
  · rw [if_neg ha] at h
    have ha' : isWrapper a.fm = false := by simpa using ha
    by_cases hb : isWrapper b.fm = true
    · exact ⟨fun haw => absurd haw (by simp [ha']), fun hbf => absurd hb (by simp [hbf])⟩
    · rw [if_neg hb] at h
      refine ⟨fun haw => absurd haw (by simp [ha']), fun _ => ?_⟩
      by_cases hp : a.place.toNat = b.place.toNat
      · rw [if_neg (by simpa using hp)] at h
        have hlt : ¬(a.val < b.val) := of_decide_eq_false h
        exact Or.inr ⟨(FormatPlace.toNat_inj hp).symm, le_of_not_lt hlt⟩
      · rw [if_pos (by simpa using hp)] at h
        have hlt : ¬(a.place.toNat < b.place.toNat) := of_decide_eq_false h
        exact Or.inl (by omega)

/-- The canonical order is transitive. -/
theorem canonBefore_trans {a b c : Format} (h1 : canonBefore a b) (h2 : canonBefore b c) :
    canonBefore a c := by
  obtain ⟨h1w, h1k⟩ := h1
  obtain ⟨h2w, h2k⟩ := h2
  refine ⟨fun hc => h1w (h2w hc), fun haf => ?_⟩
  have hbf : isWrapper b.fm = false := by
    cases hbv : isWrapper b.fm
    · rfl
    · exact absurd (h1w hbv) (by simp [haf])
  rcases h1k haf with k1 | ⟨e1, l1⟩
  · rcases h2k hbf with k2 | ⟨e2, l2⟩
    · exact Or.inl (lt_trans k1 k2)
    · exact Or.inl (by rw [← e2]; exact k1)
  · rcases h2k hbf with k2 | ⟨e2, l2⟩
    · exact Or.inl (by rw [e1]; exact k2)
    · exact Or.inr ⟨e1.trans e2, le_trans l1 l2⟩

/-- Membership after one bubbling insertion. -/
theorem mem_insertRev {less : α → α → Bool} {x z : α} :
    ∀ {l : List α}, z ∈ insertRev less x l → z = x ∨ z ∈ l := by
  intro l
  induction l with
  | nil =>
      intro h
      simp [insertRev] at h
      exact Or.inl h
  | cons y ys ih =>
      intro h
      unfold insertRev at h
      split at h
      · rcases List.mem_cons.mp h with h | h
        · exact Or.inr (by simp [h])
        · rcases ih h with h | h
          · exact Or.inl h
          · exact Or.inr (List.mem_cons_of_mem y h)
      · rcases List.mem_cons.mp h with h | h
        · exact Or.inl h
        · exact Or.inr h

/-- One bubbling insertion is a permutation. -/
theorem perm_insertRev (less : α → α → Bool) (x : α) :
    ∀ l : List α, (insertRev less x l).Perm (x :: l) := by
  intro l
  induction l with
  | nil => simp [insertRev]
  | cons y ys ih =>
      unfold insertRev
      split
      · exact (ih.cons y).trans (List.Perm.swap x y ys)
      · exact List.Perm.refl _

/-- Bubbling a new element into a reversed stack segment that is pairwise
canonically ordered (top first) keeps it so. -/
theorem pairwise_insertRev {x : Format} :
    ∀ {l : List Format}, l.Pairwise (fun a b => canonBefore b a) →
      (insertRev fsLess x l).Pairwise (fun a b => canonBefore b a) := by
  intro l
  induction l with
  | nil =>
      intro _
      simp [insertRev]
  | cons y ys ih =>
      intro hp
      rw [List.pairwise_cons] at hp
      obtain ⟨hy, hys⟩ := hp
      unfold insertRev
      split
      · rename_i hless
        rw [List.pairwise_cons]
        refine ⟨?_, ih hys⟩
        intro z hz
        rcases mem_insertRev hz with rfl | hz
        · exact canonBefore_of_fsLess hless
        · exact hy z hz
      · rename_i hless
        have hflt : fsLess x y = false := by simpa using hless
        rw [List.pairwise_cons]
        refine ⟨?_, List.pairwise_cons.mpr ⟨hy, hys⟩⟩
        intro z hz
        rcases List.mem_cons.mp hz with rfl | hz
        · exact canonBefore_of_not_fsLess hflt
        · exact canonBefore_trans (hy z hz) (canonBefore_of_not_fsLess hflt)

/-- One step of the Go insertion sort keeps the list pairwise canonically
ordered. -/
theorem pairwise_goInsert {l : List Format} (h : l.Pairwise canonBefore) (x : Format) :
    (goInsert fsLess l x).Pairwise canonBefore := by
  unfold goInsert
  rw [List.pairwise_reverse]
  exact pairwise_insertRev (List.pairwise_reverse.mpr h)

/-- One step of the Go insertion sort is a permutation. -/
theorem perm_goInsert (less : α → α → Bool) (l : List α) (x : α) :
    (goInsert less l x).Perm (x :: l) := by
  unfold goInsert
  exact (List.reverse_perm _).trans
    ((perm_insertRev less x l.reverse).trans ((List.reverse_perm l).cons x))

/-- The Go insertion sort permutes its input. -/
theorem insertionSort_perm (less : α → α → Bool) (l : List α) :
    ∀ acc : List α, (l.foldl (goInsert less) acc).Perm (acc ++ l) := by
  induction l with
  | nil =>
      intro acc
      simp
  | cons x xs ih =>
      intro acc
      refine (ih (goInsert less acc x)).trans ?_
      refine (((perm_goInsert less acc x).append_right xs).trans ?_)
      exact List.perm_middle.symm

/-- The Go insertion sort result is pairwise canonically ordered. -/
theorem insertionSort_pairwise :
    ∀ (l acc : List Format), acc.Pairwise canonBefore →
      (l.foldl (goInsert fsLess) acc).Pairwise canonBefore := by
  intro l
  induction l with
  | nil => intro acc h; exact h
  | cons x xs ih => intro acc h; exact ih _ (pairwise_goInsert h x)

/-- Claim C5: when several newly applicable formats open together,
`writeFormats` serializes exactly those formats (the sort permutes them) in
the fixed canonical order: wrapper-sourced entries never follow non-wrapper
entries, non-wrapper entries are ordered Tag before Class before Style with
ties broken by lexical value order, and the written text is the opening
fragments in that sorted order. -/
theorem writeFormats_canonical_order (l : List Format) :
    (sortFmts l).Perm l ∧
    (sortFmts l).Pairwise canonBefore ∧
    writeFormatsOut l = opensOf (sortFmts l) := by
  refine ⟨?_, ?_, rfl⟩
  · simpa [sortFmts, insertionSort] using insertionSort_perm fsLess l []
  · exact insertionSort_pairwise l [] List.Pairwise.nil

/-- Whether an entry is due to close never depends on the stack argument:
both built-in wrappers ignore the open-formats list in `Close`. -/
theorem closeDue_stack_indep (f : Format) (o : Op) (b : Bool) (fs1 fs2 : List Format) :
    closeDue fs1 f o b = closeDue fs2 f o b := by
  rcases f with ⟨v, p, bl, w, wpre, wpost, fm⟩
  cases fm <;> rfl

/-- Reading past the left part of an append lands in the right part. -/
theorem getD_append_mem_right {l₁ l₂ : List α} {j : Nat} (d : α)
    (h1 : l₁.length ≤ j) (h2 : j < (l₁ ++ l₂).length) : (l₁ ++ l₂).getD j d ∈ l₂ := by
  have hj : j - l₁.length < l₂.length := by
    rw [List.length_append] at h2
    omega
  rw [List.getD_eq_getElem?_getD, List.getElem?_append_right h1,
    List.getElem?_eq_getElem hj, Option.getD_some]
  exact List.getElem_mem hj

/-- Reading a list at the boundary of an append yields the middle element. -/
theorem getD_append_at (l₁ : List α) (f : α) (l₂ : List α) (d : α) :
    (l₁ ++ f :: l₂).getD l₁.length d = f := by
  rw [List.getD_eq_getElem?_getD, List.getElem?_append_right (le_refl _)]
  simp

/-- Reading inside a list yields one of its elements. -/
theorem getD_mem_of_lt {l : List α} {j : Nat} (d : α) (hj : j < l.length) :
    l.getD j d ∈ l := by
  rw [List.getD_eq_getElem?_getD, List.getElem?_eq_getElem hj, Option.getD_some]
  exact List.getElem_mem hj

/-- A segment of the scanning loop over entries none of which is due to
close leaves the loop state unchanged. -/
theorem closePrevLoop_skip (o : Op) (b : Bool) (fs ct : List Format) (out : String) :
    ∀ n k : Nat, k ≤ n → n ≤ fs.length →
      (∀ j, k ≤ j → j < n → closeDue fs (fs.getD j defaultFormat) o b = false) →
      closePrevLoop o b n (fs, ct, out) = closePrevLoop o b k (fs, ct, out) := by
  intro n
  induction n with
  | zero =>
      intro k hk _ _
      have hk0 : k = 0 := by omega
      rw [hk0]
  | succ m ih =>
      intro k hk hn h
      rcases Nat.eq_or_lt_of_le hk with he | hlt
      · rw [he]
      · have hkm : k ≤ m := by omega
        have hm := h m hkm (by omega)
        simp only [closePrevLoop]
        rw [hm]
        simp only [Bool.false_eq_true, if_false]
        exact ih k hkm (by omega) (fun j hj1 hj2 => h j hj1 (by omega))

/-- Claim C3 (amended): on a stack pre ++ f :: post where exactly the
non-top entry f is due to close on the current op, `closePrevious` emits the
closing fragments of the entries above f (top-down), then f's closing
fragment, then the opening fragments of the held-aside entries in canonical
sorted order, and the resulting stack is the surviving entries below f
followed by the held-aside survivors in that sorted order (not necessarily
their original relative order). -/
theorem closePrevious_single_close (pre post : List Format) (f : Format) (o : Op) (b : Bool)
    (_hne : post ≠ [])
    (hf : closeDue [] f o b = true)
    (hpre : ∀ g ∈ pre, closeDue [] g o b = false)
    (hpost : ∀ g ∈ post, closeDue [] g o b = false) :
    closePrevious (pre ++ f :: post) o b =
      (pre ++ sortFmts post.reverse,
       "" ++ popsOf post ++ popFrag f ++ opensOf (sortFmts post.reverse)) := by
  have hfs : (pre ++ f :: post).length = pre.length + 1 + post.length := by
    rw [List.length_append]
    simp
    omega
  have hdrop : (pre ++ f :: post).drop (pre.length + 1) = post := by
    rw [List.append_cons]
    have hlen : (pre ++ [f]).length = pre.length + 1 := by simp
    rw [← hlen]
    exact List.drop_left (pre ++ [f]) post
  have htake : (pre ++ f :: post).take pre.length = pre := List.take_left pre (f :: post)
  have h1 : closePrevLoop o b (pre ++ f :: post).length (pre ++ f :: post, [], "") =
      closePrevLoop o b (pre.length + 1) (pre ++ f :: post, [], "") := by
    apply closePrevLoop_skip o b _ _ _ _ _ (by omega) (le_refl _)
    intro j hj1 hj2
    have hmem : (pre ++ f :: post).getD j defaultFormat ∈ post := by
      rw [List.append_cons]
      apply getD_append_mem_right
      · simp
        omega
      · rw [← List.append_cons]
        omega
    rw [closeDue_stack_indep _ o b _ []]
    exact hpost _ hmem
  have h2 : closePrevLoop o b (pre.length + 1) (pre ++ f :: post, [], "") =
      closePrevLoop o b pre.length (pre, post.reverse, "" ++ popsOf post ++ popFrag f) := by
    simp only [closePrevLoop]
    rw [getD_append_at, closeDue_stack_indep f o b _ [], hf, if_pos rfl, hdrop, htake,
      List.nil_append]
  have h3 : closePrevLoop o b pre.length
        (pre, post.reverse, "" ++ popsOf post ++ popFrag f) =
      (pre, post.reverse, "" ++ popsOf post ++ popFrag f) := by
    have := closePrevLoop_skip o b pre post.reverse ("" ++ popsOf post ++ popFrag f)
      pre.length 0 (Nat.zero_le _) (le_refl _)
      (fun j _ hj2 => by
        rw [closeDue_stack_indep _ o b _ []]
        exact hpre _ (getD_mem_of_lt defaultFormat hj2))
    exact this
  unfold closePrevious
  rw [h1, h2, h3]

/-- Claim C3 counterexample: on the stack [em, color, strong] with an op
that keeps color and bold but drops italic, exactly the non-top entry em is
due to close, yet the resulting stack is [strong, color]: the survivors come
back in sorted order, not in their original nesting order [color, strong]. -/
theorem closePrevious_reorders_survivors :
    (closePrevious [exEm, exColor, exStrong] exOp false).1 = [exStrong, exColor] ∧
    ([exStrong, exColor] : List Format) ≠ [exColor, exStrong] ∧
    closeDue [] exEm exOp false = true ∧
    closeDue [] exColor exOp false = false ∧
    closeDue [] exStrong exOp false = false :=
  ⟨by decide, by decide, by decide, by decide, by decide⟩

/-- Claim C3 witness: the amended statement at the concrete stack
[em, strong] with the op that drops italic and keeps bold: the strong entry
is closed, em is closed underneath it, strong is re-opened, and the
resulting stack is [strong]. -/
theorem closePrevious_single_close_witness :
    closePrevious [exEm, exStrong] exOp false =
      ([exStrong], "</strong></em><strong>") := by
  have h := closePrevious_single_close [] [exStrong] exEm exOp false (by decide) (by decide)
    (by decide) (by decide)
  exact h.trans (by decide)

/-- Claim C8 (amended): the `<br>` substitution in `Op.writeBlock` requires,
besides an empty terminating-segment text and an empty accumulated temporary
buffer, that the merged block tag name is exactly "p": under those three
conditions the block is emitted with `<br>` as its body (in place of the
empty Data) and closed with `</p>`.  For any other block tag the empty block
is emitted with no substitute body. -/
theorem writeBlock_br_substitution (s : RState) (fms : List Format) (o : Op)
    (hdata : o.data = "")
    (htemp : blockTempAfterClose s o = "")
    (htag : (blockMergeStep s fms o).2.1.tagName = "p") :
    (writeBlock s fms o).1.finalBuf =
      s.finalBuf ++ (blockCloseStep s o).2.2.2 ++ (blockMergeStep s fms o).2.2.2 ++
        blockOpenTag (blockMergeStep s fms o).2.1 ++ "" ++ "<br>" ++ "</p>" := by
  unfold writeBlock
  rw [htemp]
  dsimp only
  rw [if_pos ⟨hdata, htag, rfl⟩]
  simp only [blockCloseTag, htag]
  rfl

/-- Claim C8 witness: the amended statement at the empty initial state, a
lone paragraph block format, and the blank op: the rendered block is
`<p><br></p>`. -/
theorem writeBlock_br_substitution_witness :
    (writeBlock initState [⟨"p", .tag, true, false, "", "", .textFormat⟩]
        blankOp).1.finalBuf = "<p><br></p>" := by
  have h := writeBlock_br_substitution initState
    [⟨"p", .tag, true, false, "", "", .textFormat⟩] blankOp rfl (by decide) (by decide)
  exact h.trans (by decide)

/-- Claim C10: embeds are not HTML-escaped: a single-key object insert's
Data is the raw `extractString` coercion of the value (contrast the string
insert case, which escapes), the image writer emits the src verbatim inside
Go-style double quotes, and an image whose src contains `<`, `>`, `&`
renders them unescaped. -/
theorem embed_data_not_escaped :
    (∀ (k : String) (v : JVal) (rest attrs : List (String × JVal)),
      makeOp ⟨.obj ((k, v) :: rest), attrs⟩ =
        some ⟨extractString v, k, attrs.map (fun kv => (kv.1, extractString kv.2))⟩) ∧
    (∀ src, writerOutput (.imageFormat src) = "<img src=" ++ goQuote src ++ ">") ∧
    (RenderOps [⟨.obj [("image", .str "a<b>&c")], []⟩, ⟨.str "\n", []⟩]).1 =
      "<p><img src=\"a<b>&c\"></p>" ∧
    escapeHTML "a<b>&c" = "a&lt;b&gt;&amp;c" :=
  ⟨fun _ _ _ _ => rfl, fun _ => rfl, rfl, rfl⟩

end Quill
